import Mathlib

/-!
Verification of the goose agent runtime against its natural-language
specification.  The Rust sources are shallowly embedded: pure logic becomes
Lean functions, stateful code becomes explicit state passing, `Result` values
become an explicit `RsResult` type.  Machine integers that cannot overflow on
the verified paths are modelled as `Nat`; `f32` priorities are modelled as
exact rationals (the priorities the claims exercise — 0.9, 0.5, the 0.001
epsilon — are exactly representable and far from any f32 rounding boundary).
-/

/-! ## Core data model

The message / content data types live in `crates/goose/src/models/` and
`crates/mcp-core/`, which are not part of the provided sources; they are
modelled from the specification (§3 DATA MODEL).
-/

/-- Modelled from the spec: message roles, `role ∈ {User, Assistant}` (§3).
The source enum is `Role { User, Assistant }`. -/
inductive Role where
  | user
  | assistant
  deriving DecidableEq, Repr

/-- A primitive JSON value.  Used as leaves of `Json`. -/
inductive JsonPrim where
  | null
  | jbool (b : Bool)
  | num (n : Int)
  | str (s : String)
  deriving DecidableEq, Repr

/-- Modelled from the spec: JSON values for `ToolCall.arguments` (§3,
`ToolCall = { name, arguments: JSON object }`).  Every argument object the
verified code paths construct or inspect is flat (a map from keys to
primitives, e.g. `json!({})` or `{"command": "..."}`), so the embedding
restricts JSON nesting to depth one. -/
inductive Json where
  | prim (p : JsonPrim)
  | arr (xs : List JsonPrim)
  | obj (fields : List (String × JsonPrim))
  deriving DecidableEq, Repr

/-- Modelled from the spec: the error taxonomy (§7).  The source type is
`AgentError` in `crates/goose/src/errors.rs` (not under the provided sources);
only the kinds the verified paths produce are included, each carrying its
message string. -/
inductive AgentError where
  | invalidParameters (msg : String)
  | executionError (msg : String)
  | toolNotFound (name : String)
  deriving DecidableEq, Repr

/-- Rust `Result<α, ε>`, embedded explicitly so equality is decidable. -/
inductive RsResult (ε α : Type) where
  | ok (val : α)
  | err (e : ε)
  deriving DecidableEq, Repr

/-- Modelled from the spec: content blocks `Text { text }` and
`Image { mime_type, data_base64 }` (§3).  The optional audience/priority
annotations are display-layer metadata that "must not affect model input"
(§3) and are not observed by any claim, so they are elided. -/
inductive Content where
  | text (t : String)
  | image (data : String) (mime_type : String)
  deriving DecidableEq, Repr

/-- Modelled from the spec: `ToolCall = { name: string, arguments: JSON object }` (§3). -/
structure ToolCall where
  name : String
  arguments : Json
  deriving DecidableEq, Repr

/-- Modelled from the spec: `ToolRequest { id, call: Result<ToolCall, ToolError> }` (§3).
The source field is named `tool_call` (see its uses in
`crates/goose/src/agents/default.rs`). -/
structure ToolRequest where
  id : String
  tool_call : RsResult AgentError ToolCall
  deriving DecidableEq, Repr

/-- Modelled from the spec: `ToolResponse { id, result: Result<sequence of ContentBlock, ToolError> }` (§3). -/
structure ToolResponse where
  id : String
  tool_result : RsResult AgentError (List Content)
  deriving DecidableEq, Repr

/-- Modelled from the spec: `ContentBlock` tagged union (§3). -/
inductive MessageContent where
  | text (t : String)
  | image (data : String) (mime_type : String)
  | toolRequest (r : ToolRequest)
  | toolResponse (r : ToolResponse)
  deriving DecidableEq, Repr

/-- Modelled from the spec: `Message = { role, created_at, content }` (§3).
`created_at` is a wall-clock stamp never inspected by any verified code path
and is elided. -/
structure Message where
  role : Role
  content : List MessageContent
  deriving DecidableEq, Repr

/-- `Message::user()` builder. -/
def Message.user : Message := { role := .user, content := [] }

/-- `Message::assistant()` builder. -/
def Message.assistant : Message := { role := .assistant, content := [] }

/-- `message.with_text(text)` builder. -/
def Message.with_text (m : Message) (t : String) : Message :=
  { m with content := m.content ++ [.text t] }

/-- `message.with_tool_request(id, call)` builder. -/
def Message.with_tool_request (m : Message) (id : String)
    (call : RsResult AgentError ToolCall) : Message :=
  { m with content := m.content ++ [.toolRequest ⟨id, call⟩] }

/-- `message.with_tool_response(id, result)` builder. -/
def Message.with_tool_response (m : Message) (id : String)
    (result : RsResult AgentError (List Content)) : Message :=
  { m with content := m.content ++ [.toolResponse ⟨id, result⟩]}

/-- `content.as_tool_request()`: `Some` exactly on `ToolRequest` blocks. -/
def MessageContent.as_tool_request : MessageContent → Option ToolRequest
  | .toolRequest r => some r
  | _ => none

/-- `content.as_text()` used only to pick text blocks. -/
def MessageContent.as_text : MessageContent → Option String
  | .text t => some t
  | _ => none

/-! ## Association-list helpers

Rust `HashMap` state is embedded as an association list keyed by strings; an
insert replaces an existing binding in place (`HashMap::insert` semantics up to
iteration order, which no verified claim observes).
-/

/-- Look a key up in an association list (first binding wins, as in `HashMap::get`). -/
def assocFind {β : Type} (l : List (String × β)) (k : String) : Option β :=
  match l with
  | [] => none
  | (k₁, v) :: rest => if k₁ = k then some v else assocFind rest k

/-- `HashMap::contains_key`. -/
def assocContains {β : Type} (l : List (String × β)) (k : String) : Bool :=
  (assocFind l k).isSome

/-- `HashMap::insert`: replace the binding if the key is present, else append. -/
def assocInsert {β : Type} (l : List (String × β)) (k : String) (v : β) :
    List (String × β) :=
  match l with
  | [] => [(k, v)]
  | (k₁, v₁) :: rest =>
      if k₁ = k then (k, v) :: rest else (k₁, v₁) :: assocInsert rest k v

/-- Update the value at a key with `f` when present (`HashMap::get_mut`). -/
def assocUpdate {β : Type} (l : List (String × β)) (k : String) (f : β → β) :
    List (String × β) :=
  match l with
  | [] => []
  | (k₁, v₁) :: rest =>
      if k₁ = k then (k₁, f v₁) :: rest else (k₁, v₁) :: assocUpdate rest k f

/-! ## Rust string primitives

`str::matches(pat).count()`, `str::replace`, `str::trim_start` and
`str::starts_with` are embedded on character lists, following Rust semantics:
matches are non-overlapping and scanned left to right, and the empty pattern
matches at every character boundary (`len + 1` matches).
-/

/-- Is `pat` a leading fragment of `l`? (`str::starts_with` on char lists). -/
def charsStartWith : List Char → List Char → Bool
  | [], _ => true
  | _ :: _, [] => false
  | c :: cs, d :: ds => c = d && charsStartWith cs ds

/-- Count non-overlapping matches of the non-empty pattern `pat`, scanning
left to right.  The fuel argument (instantiated with the haystack length)
keeps the recursion structural so proofs can evaluate it. -/
def matchesFrom (pat : List Char) : Nat → List Char → Nat
  | _, [] => 0
  | 0, _ => 0
  | fuel + 1, c :: rest =>
      if charsStartWith pat (c :: rest) then
        1 + matchesFrom pat fuel (List.drop (pat.length - 1) rest)
      else
        matchesFrom pat fuel rest

/-- `haystack.matches(pat).count()` (Rust).  The empty pattern matches at
every character boundary. -/
def rs_matches_count (haystack pat : String) : Nat :=
  if pat.data = [] then haystack.data.length + 1
  else matchesFrom pat.data haystack.data.length haystack.data

/-- Replace every non-overlapping match of the non-empty `pat` by `rep`,
scanning left to right (fuel-structured as above). -/
def replaceFrom (pat rep : List Char) : Nat → List Char → List Char
  | _, [] => []
  | 0, l => l
  | fuel + 1, c :: rest =>
      if charsStartWith pat (c :: rest) then
        rep ++ replaceFrom pat rep fuel (List.drop (pat.length - 1) rest)
      else
        c :: replaceFrom pat rep fuel rest

/-- `haystack.replace(pat, rep)` (Rust).  For the empty pattern Rust inserts
`rep` at every character boundary. -/
def rs_replace (haystack pat rep : String) : String :=
  if pat.data = [] then
    ⟨rep.data ++ (haystack.data.map (fun c => [c] ++ rep.data)).flatten⟩
  else
    ⟨replaceFrom pat.data rep.data haystack.data.length haystack.data⟩

/-- Unicode `White_Space` test used by Rust `char::is_whitespace`. -/
def rust_is_whitespace (c : Char) : Bool :=
  let n := c.toNat
  n = 0x09 || n = 0x0A || n = 0x0B || n = 0x0C || n = 0x0D || n = 0x20 ||
  n = 0x85 || n = 0xA0 || n = 0x1680 || (0x2000 ≤ n && n ≤ 0x200A) ||
  n = 0x2028 || n = 0x2029 || n = 0x202F || n = 0x205F || n = 0x3000

/-- `str::trim_start` (Rust): drop leading Unicode whitespace. -/
def rs_trim_start (s : String) : String :=
  ⟨s.data.dropWhile rust_is_whitespace⟩

/-- `str::starts_with` (Rust) on the embedded strings. -/
def rs_starts_with (s pat : String) : Bool :=
  charsStartWith pat.data s.data

/-! ## Developer system (`crates/goose/src/developer.rs`)

`DeveloperSystem` holds `active_resources: HashMap<String, Resource>` and
`file_history: HashMap<PathBuf, Vec<String>>` behind mutexes; the embedding
threads them as explicit state together with the file system the tool
touches.  Paths are absolute path strings; `Url::from_file_path` on an
absolute path renders as the `file://` scheme followed by the path.
-/

/-- Modelled from the spec: `Resource = { uri, mime_type, name?, priority, timestamp }`
(§3; the source type `crate::systems::Resource` is not under the provided
sources).  `priority` is optional as in its uses (`resource.priority()` is an
`Option` in `default.rs`); `timestamp` is an abstract clock value. -/
structure SystemResource where
  uri : String
  mime_type : String
  name : Option String
  priority : Option ℚ
  timestamp : Nat
  deriving DecidableEq, Repr

/-- `Resource::new(uri, Some("text"), name)` at clock value `now`. -/
def SystemResource.new (uri : String) (name : Option String) (now : Nat) :
    SystemResource :=
  { uri := uri, mime_type := "text", name := name, priority := none,
    timestamp := now }

/-- `resource.update_timestamp()`. -/
def SystemResource.update_timestamp (r : SystemResource) (now : Nat) :
    SystemResource :=
  { r with timestamp := now }

/-- The mutable state of `DeveloperSystem` plus the file system it edits:
`fs` maps an absolute path to the file content (a missing key is a missing
file), mirroring `path.exists()` / `std::fs::read_to_string` / `std::fs::write`. -/
structure DeveloperState where
  fs : List (String × String)
  active_resources : List (String × SystemResource)
  file_history : List (String × List String)
  deriving DecidableEq, Repr

/-- `Url::from_file_path(path).to_string()` for an absolute path. -/
def file_uri (path : String) : String := "file://" ++ path

/-- `path.exists()`. -/
def DeveloperState.path_exists (st : DeveloperState) (path : String) : Bool :=
  (assocFind st.fs path).isSome

/-- `DeveloperSystem::save_file_history`: push the current content (empty for
a missing file) onto the undo stack for `path`. -/
def DeveloperState.save_file_history (st : DeveloperState) (path : String) :
    DeveloperState :=
  let content := (assocFind st.fs path).getD ""
  let entry := (assocFind st.file_history path).getD []
  { st with file_history := assocInsert st.file_history path (entry ++ [content]) }

/-- `DeveloperSystem::text_editor_write` (`developer.rs` lines 495-545):
refuse to overwrite an existing file whose URI is not in `active_resources`;
otherwise record undo history, write, and (re-)activate the resource. -/
def DeveloperSystem.text_editor_write (now : Nat) (st : DeveloperState)
    (path : String) (file_text : String) :
    RsResult AgentError (DeveloperState × List Content) :=
  let uri := file_uri path
  if st.path_exists path && !assocContains st.active_resources uri then
    .err (.invalidParameters
      ("File " ++ path ++ " exists but is not active. View it first before overwriting."))
  else
    let st := st.save_file_history path
    let st := { st with fs := assocInsert st.fs path file_text }
    let resource := SystemResource.new uri none now
    let st := { st with
      active_resources := assocInsert st.active_resources uri resource }
    .ok (st,
      [ Content.text ("Successfully wrote to " ++ path),
        Content.text ("### " ++ path ++ "\n```\n" ++ file_text ++ "\n```\n") ])

/-- `DeveloperSystem::text_editor_replace` (`developer.rs` lines 547-628):
the file must exist, must have been viewed (URI in `active_resources`), and
`old_str` must occur exactly once; only then is history saved and the
replacement written back. -/
def DeveloperSystem.text_editor_replace (now : Nat) (st : DeveloperState)
    (path : String) (old_str new_str : String) :
    RsResult AgentError (DeveloperState × List Content) :=
  let uri := file_uri path
  if !st.path_exists path then
    .err (.invalidParameters ("File " ++ path ++ " does not exist"))
  else if !assocContains st.active_resources uri then
    .err (.invalidParameters ("You must view " ++ path ++ " before editing it"))
  else
    let content := (assocFind st.fs path).getD ""
    if rs_matches_count content old_str > 1 then
      .err (.invalidParameters
        "old_str must appear exactly once in the file, but it appears multiple times")
    else if rs_matches_count content old_str = 0 then
      .err (.invalidParameters
        "old_str must appear exactly once in the file, but it does not appear in the file. Make sure the string exactly matches existing file content, including spacing.")
    else
      let st := st.save_file_history path
      let new_content := rs_replace content old_str new_str
      let st := { st with fs := assocInsert st.fs path new_content }
      let st := { st with
        active_resources :=
          assocUpdate st.active_resources uri (fun r => r.update_timestamp now) }
      .ok (st,
        [ Content.text "Successfully replaced text",
          Content.text ("### " ++ path ++ "\n\n*Before*:\n```\n" ++ old_str ++
            "\n```\n\n*After*:\n```\n" ++ new_str ++ "\n```\n") ])

/-- The observable action of `DeveloperSystem::bash` when the guard passes:
a `bash -c` child process is spawned on the stderr-redirected command. -/
inductive BashAction where
  | spawn (cmd_with_redirect : String)
  deriving DecidableEq, Repr

/-- `params.get("command").and_then(|v| v.as_str())` (serde lookup). -/
def json_get_str (params : Json) (key : String) : Option String :=
  match params with
  | .obj fields =>
      match assocFind fields key with
      | some (.str s) => some s
      | _ => none
  | _ => none

/-- `DeveloperSystem::bash` (`developer.rs` lines 307-336), up to the spawn:
a missing command string is `InvalidParameters`; a command whose
whitespace-trimmed text starts with `cat` is refused with `InvalidParameters`
before any process is spawned; otherwise the shell is spawned on
`{command} 2>&1`. -/
def DeveloperSystem.bash (params : Json) : RsResult AgentError BashAction :=
  match json_get_str params "command" with
  | none => .err (.invalidParameters "The command string is required")
  | some command =>
      if rs_starts_with (rs_trim_start command) "cat" then
        .err (.invalidParameters
          "Do not use `cat` to read files, use the view mode on the text editor tool")
      else
        .ok (.spawn (command ++ " 2>&1"))

/-! ## Agent service routes (`crates/goose-server/src/routes/agent.rs`)

The three handlers are embedded as total functions from the request data to
an HTTP outcome.  Header extraction
`headers.get("X-Secret-Key").and_then(|v| v.to_str().ok())` is modelled as an
`Option String` (absent-or-unreadable collapses to `none`, which is exactly
what the handler observes).
-/

/-- `AppState` (the part the routes read): the configured secret. -/
structure AppState where
  secret_key : String
  deriving DecidableEq, Repr

/-- `CreateAgentRequest { version: Option<String>, provider: String }`. -/
structure CreateAgentRequest where
  version : Option String
  provider : String
  deriving DecidableEq, Repr

/-- The observable outcome of a handler: a 200 JSON body, an early-returned
error status, or a panic (`Result::expect` on a failed fallible call), which
completes no HTTP response at all. -/
inductive HttpOutcome where
  | okVersions (available_versions : List String) (default_version : String)
  | okCreate (version : String)
  | okProviders
  | status (code : Nat)
  | panicked (msg : String)
  deriving DecidableEq, Repr

/-- The HTTP status code of an outcome: 200 for the `ok*` bodies.  A panic
completes no response; the sentinel 0, which is no HTTP status code, marks
that case. -/
def HttpOutcome.code : HttpOutcome → Nat
  | .okVersions _ _ => 200
  | .okCreate _ => 200
  | .okProviders => 200
  | .status c => c
  | .panicked _ => 0

/-- `AgentFactory::available_versions()`: the agents registered via
`register_agent!` — `"default"` (`agents/default.rs` line 308) and
`"reference"` (`agents/reference.rs` line 207). -/
def AgentFactory.available_versions : List String := ["default", "reference"]

/-- Modelled from the spec: `AgentFactory::default_version()` (the factory
source is not under the provided sources; the default agent registered as
`"default"` is the evident default). -/
def AgentFactory.default_version : String := "default"

/-- Modelled from the spec: `AgentFactory::create(version, provider)` (the
factory source is not under the provided sources).  Creation resolves the
version against the `register_agent!` registry, so it succeeds exactly for
the registered versions and errs on any other string.  The constructed agent
itself is not observed by any claim. -/
def AgentFactory.create (version : String) : RsResult String Unit :=
  if AgentFactory.available_versions.contains version then .ok ()
  else .err version

/-- `get_versions` handler (`routes/agent.rs` lines 51-59): answers with the
version list; it never looks at the headers. -/
def get_versions : HttpOutcome :=
  .okVersions AgentFactory.available_versions AgentFactory.default_version

/-- The tail of the `create_agent` handler after the secret check
(`routes/agent.rs` lines 76-87): `factory::get_provider(&payload.provider)`
— a fallible call whose success depends on the runtime provider
configuration, passed in as `get_provider` since `providers/factory.rs` is
not under the provided sources — is unwrapped with
`.expect("Failed to create provider")`; then the version defaults and
`AgentFactory::create` is unwrapped with `.expect("Failed to create agent")`;
only then is the version echoed with status 200. -/
def create_agent_authorized (get_provider : String → RsResult String Unit)
    (payload : CreateAgentRequest) : HttpOutcome :=
  match get_provider payload.provider with
  | .err _ => .panicked "Failed to create provider"
  | .ok _ =>
      let version := payload.version.getD AgentFactory.default_version
      match AgentFactory.create version with
      | .err _ => .panicked "Failed to create agent"
      | .ok _ => .okCreate version

/-- `create_agent` handler (`routes/agent.rs` lines 61-88): requires the
`X-Secret-Key` header to equal the configured secret, else 401 before any
agent construction; with a matching secret it proceeds to the fallible
provider/agent construction. -/
def create_agent (get_provider : String → RsResult String Unit)
    (state : AppState) (secret_header : Option String)
    (payload : CreateAgentRequest) : HttpOutcome :=
  match secret_header with
  | none => .status 401
  | some secret_key =>
      if secret_key ≠ state.secret_key then .status 401
      else create_agent_authorized get_provider payload

/-- `list_providers` handler (`routes/agent.rs` lines 90-111): serves the
compiled-in provider JSON (`include_str!`, parsed with an `.expect` that the
bundled file satisfies); it never looks at the headers. -/
def list_providers : HttpOutcome := .okProviders

/-- A request to one of the three routes wired in `routes` (`routes/agent.rs`
lines 113-119), with the `X-Secret-Key` header value it carries. -/
inductive AgentRoute where
  | postAgent (secret_header : Option String) (payload : CreateAgentRequest)
  | getVersions (secret_header : Option String)
  | getProviders (secret_header : Option String)
  deriving DecidableEq, Repr

/-- The router: dispatch a request to its handler. -/
def routes (get_provider : String → RsResult String Unit) (state : AppState) :
    AgentRoute → HttpOutcome
  | .postAgent secret_header payload =>
      create_agent get_provider state secret_header payload
  | .getVersions _ => get_versions
  | .getProviders _ => list_providers

/-! ## Session rewind (`crates/goose-cli/src/session/session.rs`)

`Session::rewind_messages` pops trailing messages until the last message is a
user message containing a `Text` block, then pops that message too.
-/

/-- Does the message contain a `Text` content block with role `User`?
(`message.role == Role::User && message.content.iter().any(Text)`). -/
def is_user_text_message (m : Message) : Bool :=
  m.role = .user && m.content.any (fun c => c.as_text.isSome)

/-- The pop loop of `rewind_messages` seen from the tail: working on the
reversed history, drop messages until a user `Text` message is on top. -/
def popUntilUserTextRev : List Message → List Message
  | [] => []
  | m :: rest =>
      if is_user_text_message m then m :: rest else popUntilUserTextRev rest

/-- The pop loop of `rewind_messages`: drop trailing messages until the last
one is a user `Text` message (or the history is empty). -/
def popUntilUserText (ms : List Message) : List Message :=
  (popUntilUserTextRev ms.reverse).reverse

/-- `Session::rewind_messages` (`session.rs` lines 165-187): no-op on an
empty history; otherwise pop until the last user `Text` message, then pop it. -/
def rewind_messages (ms : List Message) : List Message :=
  if ms.isEmpty then ms
  else
    let trimmed := popUntilUserText ms
    if trimmed.isEmpty then trimmed else trimmed.dropLast

/-! ## Stdio transport actor (`crates/mcp-client/src/transport/stdio.rs`)

The two actor loops are embedded as functions from their event streams to the
sequence of pending-requests-map operations they perform.  The
`PendingRequests` map itself lives in `transport/mod.rs`, which is not under
the provided sources; its operations are modelled from the specification
(§4.B Pending-requests map).
-/

/-- Modelled from the spec: JSON-RPC envelopes (§4.A); `mcp-core`, where
`JsonRpcMessage` is declared, is not under the provided sources.  A response
carries an optional id, as the actor reads `response.id` as an `Option`. -/
inductive JsonRpcMessage where
  | request (id : Option Nat) (method : String)
  | response (id : Option Nat)
  | notification (method : String)
  deriving DecidableEq, Repr

/-- Modelled from the spec: the operations of the pending-requests map (§4.B):
insert a oneshot slot, respond-and-remove, or clear (failing every waiter
with a transport-closed error). -/
inductive PendingOp where
  | insert (id : String)
  | respond (id : String)
  | clear
  deriving DecidableEq, Repr

/-- Modelled from the spec: the effect of the §4.B operations on the set of
pending ids (the map keys; the oneshot senders are not observable here).
`respond` removes the entry (a no-op when absent), `clear` drops every entry. -/
def applyPendingOp (pending : List String) : PendingOp → List String
  | .insert id => pending ++ [id]
  | .respond id => pending.filter (fun p => p != id)
  | .clear => []

/-- Apply a whole operation sequence to the pending-id set. -/
def applyPendingOps (pending : List String) : List PendingOp → List String
  | [] => pending
  | op :: rest => applyPendingOps (applyPendingOp pending op) rest

/-- One event the reader loop observes on the child's stdout:
a line (with its parse result — `serde_json::from_str` may fail, carrying
`none`), EOF (`read_line` returns `Ok(0)`), or a read error. -/
inductive StdoutEvent where
  | line (parsed : Option JsonRpcMessage)
  | eof
  | readError
  deriving DecidableEq, Repr

/-- `StdioActor::handle_incoming_messages` (`stdio.rs` lines 35-65) as the
sequence of pending-map operations it performs: each parsed `Response` line
with an id produces a `respond`; EOF and read errors just break out of the
loop.  No other operation — in particular no `clear` — is ever issued. -/
def handle_incoming_messages : List StdoutEvent → List PendingOp
  | [] => []
  | .eof :: _ => []
  | .readError :: _ => []
  | .line parsed :: rest =>
      match parsed with
      | some (.response (some id)) =>
          .respond (toString id) :: handle_incoming_messages rest
      | _ => handle_incoming_messages rest

/-- One message the writer loop pulls from the send queue, together with the
outcome of the IO it will attempt: serialization, the stdin write, and the
flush (`true` = success). -/
structure OutgoingItem where
  message : JsonRpcMessage
  has_response_tx : Bool
  serialize_ok : Bool
  write_ok : Bool
  flush_ok : Bool
  deriving DecidableEq, Repr

/-- `StdioActor::handle_outgoing_messages` (`stdio.rs` lines 67-108) as the
sequence of pending-map operations it performs: a request with a response
sender is inserted before the write; a failed serialization skips the item;
a failed write or flush clears the whole map and breaks the loop. -/
def handle_outgoing_messages : List OutgoingItem → List PendingOp
  | [] => []
  | item :: rest =>
      if !item.serialize_ok then handle_outgoing_messages rest
      else
        let inserts :=
          if item.has_response_tx then
            match item.message with
            | .request (some id) _ => [PendingOp.insert (toString id)]
            | _ => []
          else []
        if !item.write_ok then inserts ++ [.clear]
        else if !item.flush_ok then inserts ++ [.clear]
        else inserts ++ handle_outgoing_messages rest

/-- Does an operation sequence contain a `clear`? -/
def opsHaveClear (ops : List PendingOp) : Bool :=
  ops.any (fun op => op = .clear)

/-- The ids of responses delivered by a stdout event stream (used to state
what the reader loop does to the pending set). -/
def respondedIds : List StdoutEvent → List String
  | [] => []
  | .eof :: _ => []
  | .readError :: _ => []
  | .line parsed :: rest =>
      match parsed with
      | some (.response (some id)) => toString id :: respondedIds rest
      | _ => respondedIds rest

/-! ## Default agent (`crates/goose/src/agents/default.rs`)

`prepare_inference` budgets the context window and appends the synthesized
status pair; `reply` drives the turn loop.  The provider, the tool
dispatcher, and the token counter are external collaborators and enter the
embedding as function parameters.  `HashMap` iteration (over
`resource_content`) is embedded as iteration over an association list in a
fixed order; no settled claim depends on the order.
-/

/-- Modelled from the spec: a registered `Tool { name, description, input_schema }`
(§3; the `mcp_core::Tool` source is not under the provided sources).  Tools
only flow through the token counter and the provider here. -/
structure Tool where
  name : String
  description : String
  input_schema : Json
  deriving DecidableEq, Repr

/-- Modelled from the spec: `Resource = { uri, mime_type, name?, priority, timestamp }`
(§3) as used by `prepare_inference` — `resource.name`, `resource.priority()`
(an `Option`, `unwrap_or(0.0)` at use sites) and `resource.timestamp()`.
The f32 priority is modelled as an exact rational; the timestamp is an
abstract clock value ordered as the source orders `DateTime`s. -/
structure Resource where
  name : String
  priority : Option ℚ
  timestamp : Nat
  deriving DecidableEq, Repr

/-- `resource_content: HashMap<String, HashMap<String, (Resource, String)>>`:
per system name, the resources keyed by URI with their fetched content. -/
def ResourceContent : Type := List (String × List (String × Resource × String))

/-- The token counter contract (§1: only `count_tokens`/`count_everything`
are assumed; the tokenizer implementation is out of scope).  Both take the
optional model name the source passes through. -/
structure TokenCounter where
  count_tokens : String → Option String → Nat
  count_everything :
    String → List Message → List Tool → List String → Option String → Nat

/-- `const PRIORITY_EPSILON: f32 = 0.001` (`default.rs` line 19). -/
def PRIORITY_EPSILON : ℚ := 1 / 1000

/-- Total order comparison on ℚ as an `Ordering` (Rust `partial_cmp` on
rationals never returns `None`). -/
def ratCmp (x y : ℚ) : Ordering :=
  if x < y then .lt else if x = y then .eq else .gt

/-- Rust `Option::partial_cmp` (`None` is less than `Some`), as invoked on
`b.2.priority().partial_cmp(&a.2.priority())` in the comparator. -/
def optionRatCmp : Option ℚ → Option ℚ → Ordering
  | none, none => .eq
  | none, some _ => .lt
  | some _, none => .gt
  | some x, some y => ratCmp x y

/-- One element of the `all_resources` vector built in `prepare_inference`:
`(system_name, uri, resource, token_count)`. -/
structure ResourceEntry where
  system_name : String
  uri : String
  resource : Resource
  token_count : Nat
  deriving DecidableEq, Repr

/-- The `sort_by` comparator (`default.rs` lines 99-109): priorities within
`PRIORITY_EPSILON` of each other compare by timestamp (newest first);
otherwise by priority (highest first, a missing priority below any present
one). -/
def resource_cmp (a b : ResourceEntry) : Ordering :=
  let a_priority := a.resource.priority.getD 0
  let b_priority := b.resource.priority.getD 0
  if |b_priority - a_priority| < PRIORITY_EPSILON then
    compare b.resource.timestamp a.resource.timestamp
  else
    optionRatCmp b.resource.priority a.resource.priority

/-- Insert `x` into `l` after every element not greater than it. -/
def insertBy {α : Type} (cmp : α → α → Ordering) (x : α) : List α → List α
  | [] => [x]
  | y :: ys => if cmp y x ≠ .gt then y :: insertBy cmp x ys else x :: y :: ys

/-- Rust `slice::sort_by`: a stable sort, ascending in the comparator.
Embedded as a stable insertion sort, which agrees with any stable sort for a
comparator that is a total preorder (as on every input settled here). -/
def sort_by {α : Type} (cmp : α → α → Ordering) (l : List α) : List α :=
  l.foldl (fun acc x => insertBy cmp x acc) []

/-- The trim loop of `prepare_inference` (`default.rs` lines 112-121) viewed
from the tail: the input list is the reverse of the sorted `all_resources`
(so the head is the vector's tail).  While the running count exceeds the
target and the vector is non-empty, pop and subtract that resource's token
count.  Subtraction cannot underflow on the inputs settled here (the total
estimate dominates each summand). -/
def trim_go (target_limit : Nat) : Nat → List ResourceEntry → Nat × List ResourceEntry
  | current_tokens, [] => (current_tokens, [])
  | current_tokens, e :: restRev =>
      if current_tokens > target_limit then
        trim_go target_limit (current_tokens - e.token_count) restRev
      else
        (current_tokens, e :: restRev)

/-- Remove resources from the tail of `sorted` until the running count is at
or below `target_limit` (or none are left); returns the final count and the
surviving entries in their sorted order. -/
def trim_resources (target_limit current_tokens : Nat)
    (sorted : List ResourceEntry) : Nat × List ResourceEntry :=
  let result := trim_go target_limit current_tokens sorted.reverse
  (result.1, result.2.reverse)

/-- Look up `(resource, content)` for a system/uri pair in the resource
content map (`resource_content.get(system_name).and_then(|m| m.get(uri))`). -/
def rcFind (rc : ResourceContent) (system_name uri : String) :
    Option (Resource × String) :=
  match assocFind rc system_name with
  | none => none
  | some inner =>
      match assocFind inner uri with
      | none => none
      | some (resource, content) => some (resource, content)

/-- Format one status entry: `format!("{}\n```\n{}\n```\n", resource.name, content)`. -/
def statusEntry (resource : Resource) (content : String) : String :=
  resource.name ++ "\n```\n" ++ content ++ "\n```\n"

/-- The synthesized status request (`default.rs` lines 153-154):
`Message::assistant().with_tool_request("000", Ok(ToolCall::new("status", json!({}))))`. -/
def status_request_message : Message :=
  Message.assistant.with_tool_request "000" (.ok ⟨"status", .obj []⟩)

/-- The synthesized status response (`default.rs` lines 156-157):
`Message::user().with_tool_response("000", Ok(vec![Content::text(status_str)]))`. -/
def status_response_message (status_str : String) : Message :=
  Message.user.with_tool_response "000" (.ok [Content.text status_str])

/-- `DefaultAgent::prepare_inference` (`default.rs` lines 36-164).  Estimate
the token cost of everything; if over `target_limit`, build per-resource
token counts, sort by the priority/timestamp comparator, pop from the tail
until at or below the target, and keep only the survivors in the status; else
keep every resource.  Appends `pending` and then, when the status text is
non-empty, the synthesized `"000"` status pair. -/
def prepare_inference (tc : TokenCounter) (system_prompt : String)
    (tools : List Tool) (messages pending : List Message) (target_limit : Nat)
    (model_name : String) (resource_content : ResourceContent) : List Message :=
  let resources : List String :=
    (resource_content.map (fun sys => sys.2.map (fun r => r.2.2))).flatten
  let approx_count :=
    tc.count_everything system_prompt messages tools resources (some model_name)
  let status_content : List String :=
    if approx_count > target_limit then
      let all_resources : List ResourceEntry :=
        (resource_content.map (fun sys =>
          sys.2.map (fun r =>
            { system_name := sys.1, uri := r.1, resource := r.2.1,
              token_count := tc.count_tokens r.2.2 (some model_name) }))).flatten
      let sorted := sort_by resource_cmp all_resources
      let remaining := (trim_resources target_limit approx_count sorted).2
      remaining.filterMap (fun e =>
        match rcFind resource_content e.system_name e.uri with
        | some (resource, content) => some (statusEntry resource content)
        | none => none)
    else
      (resource_content.map (fun sys =>
        sys.2.map (fun r => statusEntry r.2.1 r.2.2))).flatten
  let status_str := String.intercalate "\n" status_content
  let new_messages := messages ++ pending
  if status_str ≠ "" then
    new_messages ++ [status_request_message, status_response_message status_str]
  else
    new_messages

/-! The reply loop (`default.rs` lines 195-300). -/

/-- Everything `DefaultAgent::reply` reads from its capabilities before and
during the loop: the provider completion, the tool dispatcher, the (per
iteration) resource snapshot, the token counter, and the frozen prompt /
tools / budget. -/
structure AgentEnv where
  provider_complete : List Message → Message
  dispatch_tool_call : ToolCall → RsResult AgentError (List Content)
  get_resources : Nat → ResourceContent
  token_counter : TokenCounter
  system_prompt : String
  tools : List Tool
  estimated_limit : Nat
  model_name : String

/-- Collect the `ToolRequest` blocks of the assistant response, in order
(`response.content.iter().filter_map(as_tool_request)`). -/
def collect_tool_requests (response : Message) : List ToolRequest :=
  response.content.filterMap MessageContent.as_tool_request

/-- The dispatch-and-combine step (`default.rs` lines 262-280): build one
future per request whose embedded call is `Ok` (requests with an `Err` call
are silently skipped by `filter_map(|r| r.tool_call.clone().ok())`), await
them all, and zip the outputs back against the full request list, attaching
each output to `request.id`. -/
def dispatch_responses_message
    (dispatch : ToolCall → RsResult AgentError (List Content))
    (tool_requests : List ToolRequest) : Message :=
  let outputs :=
    (tool_requests.filterMap (fun r =>
      match r.tool_call with
      | .ok call => some call
      | .err _ => none)).map dispatch
  (tool_requests.zip outputs).foldl
    (fun m pair => m.with_tool_response pair.1.id pair.2) Message.user

/-- The status-pair strip (`default.rs` lines 284-293): when the last working
message's first content block is a `ToolResponse` with id `"000"`, pop the
last two messages.  (Rust indexes `content[0]`, which panics on an empty
content vector; the embedding reads the head option, and the theorems only
range over histories whose messages carry at least one block.) -/
def strip_status_pair (messages : List Message) : List Message :=
  match messages.getLast? with
  | none => messages
  | some message =>
      match message.content.head? with
      | some (.toolResponse result) =>
          if result.id = "000" then messages.dropLast.dropLast else messages
      | _ => messages

/-- The stream body of `DefaultAgent::reply` (`default.rs` lines 236-299):
complete, yield the assistant response, stop if it has no tool requests;
otherwise dispatch, yield the synthesized tool-response message, strip the
trailing status pair, re-run `prepare_inference` with the two new messages
pending, and loop.  `fuel` bounds the number of turns (the Rust stream is
unbounded); `iter` indexes the per-iteration resource snapshot. -/
def reply_loop (env : AgentEnv) : Nat → Nat → List Message → List Message
  | 0, _, _ => []
  | fuel + 1, iter, messages =>
      let response := env.provider_complete messages
      let tool_requests := collect_tool_requests response
      if tool_requests.isEmpty then [response]
      else
        let message_tool_response :=
          dispatch_responses_message env.dispatch_tool_call tool_requests
        let stripped := strip_status_pair messages
        let next_messages :=
          prepare_inference env.token_counter env.system_prompt env.tools
            stripped [response, message_tool_response] env.estimated_limit
            env.model_name (env.get_resources iter)
        response :: message_tool_response ::
          reply_loop env fuel (iter + 1) next_messages

/-- `DefaultAgent::reply`: budget the caller's history (no pending messages)
and run the loop.  The result is the sequence of messages the stream yields. -/
def reply (env : AgentEnv) (fuel : Nat) (history : List Message) :
    List Message :=
  reply_loop env fuel 1
    (prepare_inference env.token_counter env.system_prompt env.tools history []
      env.estimated_limit env.model_name (env.get_resources 0))

/-! ## Predicates used by the theorem statements -/

/-- Is the result an `InvalidParameters` error? -/
def RsResult.is_invalid_params {α : Type} : RsResult AgentError α → Bool
  | .err (.invalidParameters _) => true
  | _ => false

/-- A content block that is not part of the synthesized status pair: any
tool request/response id differs from `"000"`. -/
def content_status_free (c : MessageContent) : Bool :=
  match c with
  | .toolRequest r => r.id != "000"
  | .toolResponse r => r.id != "000"
  | _ => true

/-- A message with no status-pair block. -/
def status_free (m : Message) : Bool :=
  m.content.all content_status_free

/-- A history of ordinary messages: status-free, and each message carries at
least one content block (as every message the source constructs does; Rust
would panic on `content[0]` otherwise). -/
def good_history (ms : List Message) : Bool :=
  ms.all (fun m => status_free m && !m.content.isEmpty)

/-- A well-behaved provider completion: status-free, non-empty content, and
every embedded tool call is `Ok` (a provider that emits an unparsable call is
the subject of the C1 finding, not of the status-pair invariant). -/
def provider_ok (m : Message) : Bool :=
  status_free m && !m.content.isEmpty &&
    (collect_tool_requests m).all (fun r =>
      match r.tool_call with
      | .ok _ => true
      | .err _ => false)

/-- Each drop of the trim loop happened only while the running count still
exceeded the target (`drops`, in drop order, with their token counts):
the loop never removes a resource once the estimate is within budget. -/
def drops_only_while_over (target_limit : Nat) : Nat → List ResourceEntry → Bool
  | _, [] => true
  | current_tokens, e :: rest =>
      decide (current_tokens > target_limit) &&
        drops_only_while_over target_limit (current_tokens - e.token_count) rest

/-- Scanning from the tail of the history: when the first user `Text`
message is found, the message just below it (if any) must be an assistant
message.  `true` when no user `Text` message exists. -/
def predecessor_of_last_user_text_ok : List Message → Bool
  | [] => true
  | m :: rest =>
      if is_user_text_message m then
        match rest with
        | [] => true
        | p :: _ => p.role = .assistant
      else
        predecessor_of_last_user_text_ok rest

/-- The amended rewind precondition: the message immediately preceding the
last user `Text` message, when both exist, is an assistant message. -/
def rewind_precondition (ms : List Message) : Bool :=
  predecessor_of_last_user_text_ok ms.reverse

/-! ## Concrete instances exercised by the claims -/

/-- A stub dispatcher that records which call it was given by echoing the
call name into the response content. -/
def c1_dispatch : ToolCall → RsResult AgentError (List Content) :=
  fun call => .ok [Content.text call.name]

/-- Two tool requests: id `"1"` carries an `Err` tool call (the provider
emitted an unparsable call), id `"2"` carries an `Ok` call of `echo`. -/
def c1_requests : List ToolRequest :=
  [ ⟨"1", .err (.invalidParameters "bad call")⟩,
    ⟨"2", .ok ⟨"echo", .obj []⟩⟩ ]

/-- A history ending in two consecutive user `Text` messages. -/
def c4_history : List Message :=
  [Message.user.with_text "a", Message.user.with_text "b"]

/-- A trivial token counter for instances where the budget never binds. -/
def zero_token_counter : TokenCounter :=
  { count_tokens := fun _ _ => 0, count_everything := fun _ _ _ _ _ => 0 }

/-- The single-turn echo environment: no tools, no resources, and a provider
stubbed to answer `Assistant([Text("Hello")])`. -/
def c7_env : AgentEnv :=
  { provider_complete := fun _ => Message.assistant.with_text "Hello",
    dispatch_tool_call := fun _ => .ok [],
    get_resources := fun _ => ([] : ResourceContent),
    token_counter := zero_token_counter,
    system_prompt := "",
    tools := [],
    estimated_limit := 100000,
    model_name := "test-model" }

/-- The history `[User("Hi")]`. -/
def c7_history : List Message := [Message.user.with_text "Hi"]

/-- The trim instance: priority 0.9, oldest timestamp. -/
def c6_r09 : Resource := { name := "r09", priority := some (9 / 10), timestamp := 0 }

/-- The trim instance: priority 0.5, middle timestamp (T1). -/
def c6_r05_t1 : Resource := { name := "r05t1", priority := some (1 / 2), timestamp := 1 }

/-- The trim instance: priority 0.5, newest timestamp (T2). -/
def c6_r05_t2 : Resource := { name := "r05t2", priority := some (1 / 2), timestamp := 2 }

/-- The trim instance resource map: one system with the three resources at
800 tokens of content each. -/
def c6_rc : ResourceContent :=
  [ ("sys",
     [ ("u0", c6_r09, "c0"),
       ("u1", c6_r05_t1, "c1"),
       ("u2", c6_r05_t2, "c2") ]) ]

/-- The trim instance token counter: every resource counts 800 tokens and
the whole payload counts 2600 (3 × 800 plus a 200-token baseline). -/
def c6_tc : TokenCounter :=
  { count_tokens := fun _ _ => 800, count_everything := fun _ _ _ _ _ => 2600 }

/-- The `all_resources` vector the trim instance produces (in map order). -/
def c6_entries : List ResourceEntry :=
  [ { system_name := "sys", uri := "u0", resource := c6_r09, token_count := 800 },
    { system_name := "sys", uri := "u1", resource := c6_r05_t1, token_count := 800 },
    { system_name := "sys", uri := "u2", resource := c6_r05_t2, token_count := 800 } ]

/-- The invariant shape of the reply loop's working history: a status-free
core of messages, each with at least one content block, optionally followed
by exactly one trailing status pair. -/
def working_shape (msgs : List Message) : Prop :=
  ∃ core, good_history core = true ∧
    (msgs = core ∨
      ∃ s, msgs = core ++ [status_request_message, status_response_message s])

/-! # Theorems

One theorem per claim of the specification review, with witnesses for the
theorems that carry hypotheses and counterexamples where the claim fails on
the code.
-/

/-! ## C10 — the bash tool refuses `cat` commands -/

/-- C10: every invocation of the developer bash tool whose command string,
after stripping leading whitespace, starts with `cat` returns an
`InvalidParameters` error directing the caller to the text editor, and no
shell process is spawned (the embedding returns the error before any
`BashAction.spawn` is produced). -/
theorem C10_bash_refuses_cat (params : Json) (command : String)
    (hcmd : json_get_str params "command" = some command)
    (hcat : rs_starts_with (rs_trim_start command) "cat" = true) :
    DeveloperSystem.bash params =
      .err (.invalidParameters
        "Do not use `cat` to read files, use the view mode on the text editor tool") := by
  simp [DeveloperSystem.bash, hcmd, hcat]

/-- Witness for C10 at the command `"  cat foo.txt"`. -/
theorem C10_bash_refuses_cat_witness :
    json_get_str (Json.obj [("command", .str "  cat foo.txt")]) "command" =
      some "  cat foo.txt" ∧
    rs_starts_with (rs_trim_start "  cat foo.txt") "cat" = true ∧
    DeveloperSystem.bash (Json.obj [("command", .str "  cat foo.txt")]) =
      .err (.invalidParameters
        "Do not use `cat` to read files, use the view mode on the text editor tool") :=
  ⟨by decide, by decide,
    C10_bash_refuses_cat (Json.obj [("command", .str "  cat foo.txt")])
      "  cat foo.txt" (by decide) (by decide)⟩

/-! ## C9 — the text editor refuses edits to never-viewed files -/

/-- C9: with the path's URI absent from `active_resources`, a `write` to a
path that exists on disk returns `InvalidParameters`, and a `str_replace`
on any path (existing or not) returns `InvalidParameters`; the developer
state — file system and undo history — is returned unchanged only through
the `ok` constructor, so an error leaves both untouched. -/
theorem C9_edit_requires_view (now : Nat) (st : DeveloperState)
    (path file_text old_str new_str : String)
    (hactive : assocContains st.active_resources (file_uri path) = false) :
    (st.path_exists path = true →
      DeveloperSystem.text_editor_write now st path file_text =
        .err (.invalidParameters
          ("File " ++ path ++
            " exists but is not active. View it first before overwriting."))) ∧
    RsResult.is_invalid_params
      (DeveloperSystem.text_editor_replace now st path old_str new_str) = true := by
  constructor
  · intro hexists
    simp [DeveloperSystem.text_editor_write, hexists, hactive]
  · by_cases hexists : st.path_exists path = true
    · simp [DeveloperSystem.text_editor_replace, hexists, hactive,
        RsResult.is_invalid_params]
    · simp only [Bool.not_eq_true] at hexists
      simp [DeveloperSystem.text_editor_replace, hexists,
        RsResult.is_invalid_params]

/-- Witness for C9: a file `/a.txt` exists on disk but was never viewed. -/
theorem C9_edit_requires_view_witness :
    assocContains
      (DeveloperState.mk [("/a.txt", "x")] [] []).active_resources
      (file_uri "/a.txt") = false ∧
    ((DeveloperState.mk [("/a.txt", "x")] [] []).path_exists "/a.txt" = true →
      DeveloperSystem.text_editor_write 7 (DeveloperState.mk [("/a.txt", "x")] [] [])
        "/a.txt" "new" =
        .err (.invalidParameters
          ("File " ++ "/a.txt" ++
            " exists but is not active. View it first before overwriting."))) ∧
    RsResult.is_invalid_params
      (DeveloperSystem.text_editor_replace 7 (DeveloperState.mk [("/a.txt", "x")] [] [])
        "/a.txt" "x" "y") = true :=
  ⟨by decide,
    (C9_edit_requires_view 7 (DeveloperState.mk [("/a.txt", "x")] [] [])
      "/a.txt" "new" "x" "y" (by decide)).1,
    (C9_edit_requires_view 7 (DeveloperState.mk [("/a.txt", "x")] [] [])
      "/a.txt" "new" "x" "y" (by decide)).2⟩

/-! ## C8 — `str_replace` rejects zero or multiple occurrences atomically -/

/-- C8: a `str_replace` on a viewed, existing file whose content contains
`old_str` zero times or at least twice returns an `InvalidParameters` error;
the updated state is only ever produced through the `ok` constructor, so on
this error neither the file system nor the undo history changes. -/
theorem C8_str_replace_unique (now : Nat) (st : DeveloperState)
    (path old_str new_str : String)
    (hexists : st.path_exists path = true)
    (hactive : assocContains st.active_resources (file_uri path) = true)
    (hcount : rs_matches_count ((assocFind st.fs path).getD "") old_str ≠ 1) :
    ∃ msg,
      DeveloperSystem.text_editor_replace now st path old_str new_str =
        .err (.invalidParameters msg) := by
  rcases Nat.lt_or_ge (rs_matches_count ((assocFind st.fs path).getD "") old_str) 1 with h | h
  · have h0 : rs_matches_count ((assocFind st.fs path).getD "") old_str = 0 := by omega
    by_cases hgt : rs_matches_count ((assocFind st.fs path).getD "") old_str > 1
    · omega
    · refine ⟨"old_str must appear exactly once in the file, but it does not appear in the file. Make sure the string exactly matches existing file content, including spacing.", ?_⟩
      simp [DeveloperSystem.text_editor_replace, hexists, hactive, h0, hgt]
  · have hgt : rs_matches_count ((assocFind st.fs path).getD "") old_str > 1 := by omega
    refine ⟨"old_str must appear exactly once in the file, but it appears multiple times", ?_⟩
    simp [DeveloperSystem.text_editor_replace, hexists, hactive, hgt]

/-- Witness for C8: the file `/a.txt` was viewed and holds `"aba"`; the
pattern `"a"` occurs twice. -/
theorem C8_str_replace_unique_witness :
    (DeveloperState.mk [("/a.txt", "aba")] [(file_uri "/a.txt",
        SystemResource.new (file_uri "/a.txt") none 0)] []).path_exists "/a.txt" = true ∧
    assocContains
      (DeveloperState.mk [("/a.txt", "aba")] [(file_uri "/a.txt",
        SystemResource.new (file_uri "/a.txt") none 0)] []).active_resources
      (file_uri "/a.txt") = true ∧
    rs_matches_count
      ((assocFind (DeveloperState.mk [("/a.txt", "aba")] [(file_uri "/a.txt",
        SystemResource.new (file_uri "/a.txt") none 0)] []).fs "/a.txt").getD "") "a" ≠ 1 ∧
    ∃ msg,
      DeveloperSystem.text_editor_replace 3
        (DeveloperState.mk [("/a.txt", "aba")] [(file_uri "/a.txt",
          SystemResource.new (file_uri "/a.txt") none 0)] []) "/a.txt" "a" "z" =
        .err (.invalidParameters msg) :=
  ⟨by decide, by decide, by decide,
    C8_str_replace_unique 3
      (DeveloperState.mk [("/a.txt", "aba")] [(file_uri "/a.txt",
        SystemResource.new (file_uri "/a.txt") none 0)] [])
      "/a.txt" "a" "z" (by decide) (by decide) (by decide)⟩

/-! ## C3 — authentication of the agent service routes -/

/-- C3 counterexample: a `GET /agent/versions` (and a `GET /agent/providers`)
request with the `X-Secret-Key` header absent or wrong is answered 200, not
401 — those handlers never read the headers.  (The provider factory argument
is irrelevant to the GET routes; an always-succeeding one is supplied.) -/
theorem C3_get_routes_unauthenticated :
    ((routes (fun _ => .ok ()) { secret_key := "s3cret" }
        (.getVersions none)).code == 401) = false ∧
    (routes (fun _ => .ok ()) { secret_key := "s3cret" }
        (.getVersions none)).code = 200 ∧
    ((routes (fun _ => .ok ()) { secret_key := "s3cret" }
        (.getProviders (some "wrong"))).code == 401) = false ∧
    (routes (fun _ => .ok ()) { secret_key := "s3cret" }
        (.getProviders (some "wrong"))).code = 200 := by
  decide

/-- C3 amended: only `POST /agent` checks `X-Secret-Key` — a request whose
header is absent or differs from the configured secret receives 401 before
any agent construction, and a matching secret proceeds to the fallible
provider/agent construction (`create_agent_authorized`, which may panic on
its `.expect` calls — no success status is asserted); `GET /agent/versions`
and `GET /agent/providers` never read the header and answer 200. -/
theorem C3_route_status_characterization
    (get_provider : String → RsResult String Unit) (state : AppState) :
    (∀ h, (routes get_provider state (.getVersions h)).code = 200) ∧
    (∀ h, (routes get_provider state (.getProviders h)).code = 200) ∧
    (∀ payload,
      routes get_provider state (.postAgent none payload) = .status 401) ∧
    (∀ key payload,
      routes get_provider state (.postAgent (some key) payload) =
        if key = state.secret_key then
          create_agent_authorized get_provider payload
        else .status 401) := by
  refine ⟨fun _ => rfl, fun _ => rfl, fun _ => rfl, fun key payload => ?_⟩
  by_cases hk : key = state.secret_key <;> simp [routes, create_agent, hk]

/-! ## C1 — one tool response per tool request -/

/-- C1: the dispatch step builds one future per `Ok` tool call but zips the
outputs against the full request list, so a request whose embedded call is an
`Err` misaligns the pairing.  At the failing input (request `"1"` carries an
`Err` call, request `"2"` an `Ok` call of `echo`), the synthesized user
message holds a single `ToolResponse` with id `"1"` carrying the outcome of
request `"2"`'s call — not, as the claim states, one response per request
with matching ids, the `Err` request answered by its error. -/
theorem C1_err_tool_call_misaligns_responses :
    dispatch_responses_message c1_dispatch c1_requests =
      { role := .user,
        content := [.toolResponse ⟨"1", .ok [Content.text "echo"]⟩] } ∧
    ((dispatch_responses_message c1_dispatch c1_requests).content ==
      [ .toolResponse ⟨"1", .err (.invalidParameters "bad call")⟩,
        .toolResponse ⟨"2", .ok [Content.text "echo"]⟩ ]) = false := by
  decide

/-! ## C2 — clearing the pending map on stdio transport termination -/

/-- C2 counterexample: the reader loop terminates on EOF of the child's
stdout without clearing the pending map — a pending request id `"5"` is
still pending afterwards, so its caller is not failed by this termination. -/
theorem C2_eof_does_not_clear :
    applyPendingOps ["5"] (handle_incoming_messages [StdoutEvent.eof]) = ["5"] ∧
    opsHaveClear (handle_incoming_messages [StdoutEvent.eof]) = false ∧
    (applyPendingOps ["5"] (handle_incoming_messages [StdoutEvent.eof])).isEmpty = false := by
  decide

/-- The reader loop is exactly the respond sequence of the parsed responses. -/
theorem handle_incoming_eq_responds (events : List StdoutEvent) :
    handle_incoming_messages events = (respondedIds events).map PendingOp.respond := by
  induction events with
  | nil => rfl
  | cons e rest ih =>
      cases e with
      | eof => rfl
      | readError => rfl
      | line parsed =>
          match parsed with
          | none => simpa [handle_incoming_messages, respondedIds] using ih
          | some (.request id m) => simpa [handle_incoming_messages, respondedIds] using ih
          | some (.notification m) => simpa [handle_incoming_messages, respondedIds] using ih
          | some (.response none) => simpa [handle_incoming_messages, respondedIds] using ih
          | some (.response (some id)) =>
              simpa [handle_incoming_messages, respondedIds] using ih

/-- Applying a respond sequence filters exactly the responded ids out. -/
theorem applyPendingOps_responds (ids pending : List String) :
    applyPendingOps pending (ids.map PendingOp.respond) =
      pending.filter (fun p => !ids.contains p) := by
  induction ids generalizing pending with
  | nil => simp [applyPendingOps]
  | cons id rest ih =>
      simp only [List.map_cons, applyPendingOps, applyPendingOp, ih,
        List.filter_filter]
      congr 1
      funext p
      by_cases h : p = id <;> simp [h]

/-- A concatenation has a clear exactly when one of its halves does. -/
theorem opsHaveClear_append (l₁ l₂ : List PendingOp) :
    opsHaveClear (l₁ ++ l₂) = (opsHaveClear l₁ || opsHaveClear l₂) := by
  simp [opsHaveClear]

/-- The insert block the writer loop emits before a write holds no clear. -/
theorem opsHaveClear_writer_inserts (item : OutgoingItem) :
    opsHaveClear
      (if item.has_response_tx then
        match item.message with
        | .request (some id) _ => [PendingOp.insert (toString id)]
        | _ => []
      else []) = false := by
  cases h : item.has_response_tx
  · simp [opsHaveClear]
  · cases item.message with
    | request id method => cases id <;> simp [opsHaveClear]
    | response id => simp [opsHaveClear]
    | notification method => simp [opsHaveClear]

/-- C2 amended: the pending map is cleared only by the writer loop, when a
write or flush to the child's stdin fails; the reader loop never clears — on
its termination (EOF or read error) the pending set is exactly the prior set
minus the ids of the responses that were delivered, so outstanding callers
are not failed at that point. -/
theorem C2_clear_only_on_write_failure (events : List StdoutEvent)
    (pending : List String) (items : List OutgoingItem) :
    opsHaveClear (handle_incoming_messages events) = false ∧
    applyPendingOps pending (handle_incoming_messages events) =
      pending.filter (fun p => !(respondedIds events).contains p) ∧
    opsHaveClear (handle_outgoing_messages items) =
      items.any (fun i => i.serialize_ok && (!i.write_ok || !i.flush_ok)) := by
  refine ⟨?_, ?_, ?_⟩
  · rw [handle_incoming_eq_responds]
    induction respondedIds events with
    | nil => rfl
    | cons id rest ih =>
        simp only [List.map_cons, opsHaveClear, List.any_cons] at ih ⊢
        simp [ih]
  · rw [handle_incoming_eq_responds, applyPendingOps_responds]
  · induction items with
    | nil => rfl
    | cons item rest ih =>
        by_cases hs : item.serialize_ok
        · by_cases hw : item.write_ok
          · by_cases hf : item.flush_ok
            · simp only [handle_outgoing_messages, hs, hw, hf, Bool.not_true,
                Bool.false_eq_true, if_false, if_true, List.any_cons,
                opsHaveClear_append, opsHaveClear_writer_inserts, ih]
              simp [hs, hw, hf, opsHaveClear]
            · simp only [handle_outgoing_messages, hs, hw,
                Bool.not_true, Bool.false_eq_true, if_false, List.any_cons]
              simp only [Bool.not_eq_true] at hf
              simp [hf, opsHaveClear_append, opsHaveClear_writer_inserts,
                opsHaveClear, hs]
          · simp only [handle_outgoing_messages, hs, List.any_cons]
            simp only [Bool.not_eq_true] at hw
            simp [hw, opsHaveClear_append, opsHaveClear_writer_inserts,
              opsHaveClear, hs]
        · simp only [Bool.not_eq_true] at hs
          simp only [handle_outgoing_messages, hs, List.any_cons, Bool.not_false,
            if_true, Bool.false_and, Bool.false_or, ih]

/-! ## C4 — rewind leaves an empty or assistant-terminated history -/

/-- C4 counterexample: on the history `[User(Text "a"), User(Text "b")]`
(two consecutive user text messages) `rewind_messages` leaves
`[User(Text "a")]` — non-empty and ending in a user message, not an
assistant message. -/
theorem C4_rewind_can_end_in_user :
    rewind_messages c4_history = [Message.user.with_text "a"] ∧
    ((rewind_messages c4_history).getLast?.map Message.role ==
      some Role.assistant) = false ∧
    (rewind_messages c4_history).isEmpty = false := by
  decide

/-- The pop loop either empties the reversed history or stops at a user
`Text` message whose predecessor (when the precondition holds) is an
assistant message. -/
theorem popUntilUserTextRev_shape (l : List Message)
    (h : predecessor_of_last_user_text_ok l = true) :
    popUntilUserTextRev l = [] ∨
      ∃ m rest, popUntilUserTextRev l = m :: rest ∧
        is_user_text_message m = true ∧
        (rest = [] ∨ ∃ p tail, rest = p :: tail ∧ p.role = .assistant) := by
  induction l with
  | nil => exact Or.inl rfl
  | cons m rest ih =>
      by_cases hm : is_user_text_message m = true
      · refine Or.inr ⟨m, rest, ?_, hm, ?_⟩
        · simp [popUntilUserTextRev, hm]
        · cases rest with
          | nil => exact Or.inl rfl
          | cons p tail =>
              refine Or.inr ⟨p, tail, rfl, ?_⟩
              simp only [predecessor_of_last_user_text_ok, hm, if_true] at h
              exact of_decide_eq_true h
      · simp only [Bool.not_eq_true] at hm
        simp only [predecessor_of_last_user_text_ok, hm, Bool.false_eq_true,
          if_false] at h
        simpa [popUntilUserTextRev, hm] using ih h

/-- C4 amended: for every history in which the message immediately preceding
the last user `Text` message (when both exist) is an assistant message —
true of every history the session loop builds, where each user text send is
answered by an assistant message — `rewind_messages` leaves the history
empty or ending in an assistant message. -/
theorem C4_rewind_ends_empty_or_assistant (ms : List Message)
    (h : rewind_precondition ms = true) :
    rewind_messages ms = [] ∨
      (rewind_messages ms).getLast?.map Message.role = some .assistant := by
  by_cases hempty : ms.isEmpty
  · left
    simp only [rewind_messages, hempty, if_true]
    simpa using hempty
  · have hshape := popUntilUserTextRev_shape ms.reverse h
    rcases hshape with hnil | ⟨m, rest, heq, _, hrest⟩
    · left
      simp [rewind_messages, hempty, popUntilUserText, hnil]
    · have htrim : popUntilUserText ms = rest.reverse ++ [m] := by
        simp [popUntilUserText, heq]
      have htrim_ne : (popUntilUserText ms).isEmpty = false := by
        simp [htrim]
      have hdrop : (popUntilUserText ms).dropLast = rest.reverse := by
        simp [htrim]
      rcases hrest with hnil' | ⟨p, tail, hrest_eq, hrole⟩
      · left
        simp [rewind_messages, hempty, htrim_ne, hdrop, hnil']
      · right
        simp [rewind_messages, hempty, htrim_ne, hdrop, hrest_eq,
          List.getLast?_concat, hrole]

/-- Witness for C4 amended at the history
`[User(Text "First"), Assistant(Text "R1"), User(Text "Second")]`. -/
theorem C4_rewind_ends_empty_or_assistant_witness :
    rewind_precondition
      [Message.user.with_text "First", Message.assistant.with_text "R1",
        Message.user.with_text "Second"] = true ∧
    (rewind_messages
        [Message.user.with_text "First", Message.assistant.with_text "R1",
          Message.user.with_text "Second"] = [] ∨
      (rewind_messages
          [Message.user.with_text "First", Message.assistant.with_text "R1",
            Message.user.with_text "Second"]).getLast?.map Message.role =
        some .assistant) :=
  ⟨by decide,
    C4_rewind_ends_empty_or_assistant
      [Message.user.with_text "First", Message.assistant.with_text "R1",
        Message.user.with_text "Second"] (by decide)⟩

/-! ## C7 — a completion without tool requests ends the stream -/

/-- C7: when the provider completion over the budgeted history contains no
tool-request block, the reply stream yields exactly that one assistant
message and terminates (any fuel bound of at least one turn gives the same,
already-terminated yield sequence). -/
theorem C7_no_tool_requests_single_yield (env : AgentEnv) (fuel : Nat)
    (history : List Message)
    (hfuel : 1 ≤ fuel)
    (hnone : collect_tool_requests
        (env.provider_complete
          (prepare_inference env.token_counter env.system_prompt env.tools
            history [] env.estimated_limit env.model_name
            (env.get_resources 0))) = []) :
    reply env fuel history =
      [env.provider_complete
        (prepare_inference env.token_counter env.system_prompt env.tools
          history [] env.estimated_limit env.model_name
          (env.get_resources 0))] := by
  match fuel, hfuel with
  | f + 1, _ => simp [reply, reply_loop, hnone]

/-- Witness for C7: the single-turn echo — history `[User("Hi")]`, no tools,
provider stubbed to `Assistant([Text("Hello")])` — yields exactly that
assistant message. -/
theorem C7_no_tool_requests_single_yield_witness :
    1 ≤ 1 ∧
    collect_tool_requests
      (c7_env.provider_complete
        (prepare_inference c7_env.token_counter c7_env.system_prompt
          c7_env.tools c7_history [] c7_env.estimated_limit c7_env.model_name
          (c7_env.get_resources 0))) = [] ∧
    reply c7_env 1 c7_history =
      [c7_env.provider_complete
        (prepare_inference c7_env.token_counter c7_env.system_prompt
          c7_env.tools c7_history [] c7_env.estimated_limit c7_env.model_name
          (c7_env.get_resources 0))] ∧
    c7_env.provider_complete
      (prepare_inference c7_env.token_counter c7_env.system_prompt c7_env.tools
        c7_history [] c7_env.estimated_limit c7_env.model_name
        (c7_env.get_resources 0)) = Message.assistant.with_text "Hello" :=
  ⟨Nat.le_refl 1, by decide,
    C7_no_tool_requests_single_yield c7_env 1 c7_history (Nat.le_refl 1) (by decide),
    by decide⟩

/-! ## C5 — the synthesized status pair: shape, stripping, and privacy -/

/-- Tool-request ids of a status-free message never equal `"000"`. -/
theorem collect_ids_ne_status (m : Message) (hm : status_free m = true) :
    ∀ r ∈ collect_tool_requests m, (r.id != "000") = true := by
  intro r hr
  simp only [collect_tool_requests, List.mem_filterMap] at hr
  obtain ⟨c, hc, hcr⟩ := hr
  cases c <;> simp [MessageContent.as_tool_request] at hcr
  subst hcr
  simp only [status_free, List.all_eq_true] at hm
  exact hm _ hc

/-- Folding `with_tool_response` appends one `ToolResponse` block per pair. -/
theorem foldl_with_tool_response (m : Message)
    (l : List (ToolRequest × RsResult AgentError (List Content))) :
    l.foldl (fun acc p => acc.with_tool_response p.1.id p.2) m =
      { role := m.role,
        content := m.content ++
          l.map (fun p => .toolResponse ⟨p.1.id, p.2⟩) } := by
  induction l generalizing m with
  | nil => simp
  | cons p rest ih =>
      rw [List.foldl_cons, ih]
      simp [Message.with_tool_response, List.append_assoc]

/-- The synthesized tool-response message, spelled out: a user message whose
content zips the requests against the dispatched outputs of the `Ok` calls. -/
theorem dispatch_responses_message_eq
    (dispatch : ToolCall → RsResult AgentError (List Content))
    (tool_requests : List ToolRequest) :
    dispatch_responses_message dispatch tool_requests =
      { role := .user,
        content :=
          (tool_requests.zip
            ((tool_requests.filterMap (fun r =>
              match r.tool_call with
              | .ok call => some call
              | .err _ => none)).map dispatch)).map
            (fun p => .toolResponse ⟨p.1.id, p.2⟩) } := by
  simp [dispatch_responses_message, foldl_with_tool_response, Message.user]

/-- The synthesized tool-response message of a status-free response is
itself status-free. -/
theorem status_free_dispatch_responses
    (dispatch : ToolCall → RsResult AgentError (List Content))
    (tool_requests : List ToolRequest)
    (hids : ∀ r ∈ tool_requests, (r.id != "000") = true) :
    status_free (dispatch_responses_message dispatch tool_requests) = true := by
  rw [dispatch_responses_message_eq]
  simp only [status_free, List.all_eq_true, List.mem_map]
  rintro c ⟨p, hp, rfl⟩
  have := (List.of_mem_zip hp).1
  simpa [content_status_free] using hids _ this

/-- When every embedded call is `Ok`, no request is dropped by the
`filter_map`. -/
theorem filterMap_ok_length (tool_requests : List ToolRequest)
    (hok : ∀ r ∈ tool_requests,
      (match r.tool_call with
        | RsResult.ok _ => true
        | RsResult.err _ => false) = true) :
    (tool_requests.filterMap (fun r =>
      match r.tool_call with
      | .ok call => some call
      | .err _ => none)).length = tool_requests.length := by
  induction tool_requests with
  | nil => rfl
  | cons r rest ih =>
      have hr := hok r (List.mem_cons_self r rest)
      have hrest : ∀ x ∈ rest,
          (match x.tool_call with
            | RsResult.ok _ => true
            | RsResult.err _ => false) = true :=
        fun x hx => hok x (List.mem_cons_of_mem r hx)
      cases hcall : r.tool_call with
      | ok call => simp [List.filterMap_cons, hcall, ih hrest]
      | err e => rw [hcall] at hr ; simp at hr

/-- The status pair of `prepare_inference`: the output is the old messages
plus the pending messages, optionally followed by exactly the two status
messages — the assistant `tool_request` with id `"000"` and the user
`tool_response` with the same id — at the very end. -/
theorem prepare_inference_shape (tc : TokenCounter) (sp : String)
    (tls : List Tool) (msgs pending : List Message) (tgt : Nat) (mdl : String)
    (rc : ResourceContent) :
    prepare_inference tc sp tls msgs pending tgt mdl rc = msgs ++ pending ∨
      ∃ s, prepare_inference tc sp tls msgs pending tgt mdl rc =
        (msgs ++ pending) ++
          [status_request_message, status_response_message s] := by
  have key : ∀ (nm : List Message) (s : String) (c : Prop) [Decidable c],
      (if c then nm ++ [status_request_message, status_response_message s]
        else nm) = nm ∨
      ∃ t, (if c then nm ++ [status_request_message, status_response_message s]
        else nm) = nm ++ [status_request_message, status_response_message t] := by
    intro nm s c hc
    by_cases h : c
    · exact Or.inr ⟨s, by simp [h]⟩
    · exact Or.inl (by simp [h])
  simpa only [prepare_inference] using key _ _ _

/-- Stripping a working history that ends in the status pair removes exactly
that pair. -/
theorem strip_status_pair_of_pair (core : List Message) (s : String) :
    strip_status_pair
      (core ++ [status_request_message, status_response_message s]) = core := by
  have hsplit : core ++ [status_request_message, status_response_message s] =
      (core ++ [status_request_message]) ++ [status_response_message s] := by
    simp
  rw [strip_status_pair, hsplit, List.getLast?_concat]
  simp [status_response_message, Message.user, Message.with_tool_response,
    List.dropLast_concat]

/-- Stripping a status-free working history is the identity. -/
theorem strip_status_pair_good (core : List Message)
    (h : good_history core = true) :
    strip_status_pair core = core := by
  cases hlast : core.getLast? with
  | none => simp [strip_status_pair, hlast]
  | some m =>
      have hm : m ∈ core := List.mem_of_mem_getLast? hlast
      have hgood : (status_free m && !m.content.isEmpty) = true := by
        simp only [good_history, List.all_eq_true] at h
        exact h m hm
      have hsf : status_free m = true := by
        simp only [Bool.and_eq_true] at hgood
        exact hgood.1
      cases hhead : m.content.head? with
      | none => simp [strip_status_pair, hlast, hhead]
      | some c =>
          have hc : c ∈ m.content := List.mem_of_mem_head? (by rw [hhead]; rfl)
          have hcfree : content_status_free c = true := by
            simp only [status_free, List.all_eq_true] at hsf
            exact hsf c hc
          cases c with
          | text t => simp [strip_status_pair, hlast, hhead]
          | image d mt => simp [strip_status_pair, hlast, hhead]
          | toolRequest r => simp [strip_status_pair, hlast, hhead]
          | toolResponse r =>
              have : (r.id = "000") = False := by
                simpa [content_status_free] using hcfree
              simp [strip_status_pair, hlast, hhead, this]

/-- When every embedded call is `Ok` and there is at least one request, the
synthesized tool-response message has at least one content block. -/
theorem dispatch_responses_message_nonempty
    (dispatch : ToolCall → RsResult AgentError (List Content))
    (reqs : List ToolRequest)
    (hok : ∀ r ∈ reqs,
      (match r.tool_call with
        | RsResult.ok _ => true
        | RsResult.err _ => false) = true)
    (hne : reqs ≠ []) :
    (dispatch_responses_message dispatch reqs).content.isEmpty = false := by
  rw [dispatch_responses_message_eq]
  have hlen := filterMap_ok_length reqs hok
  cases hz : reqs.zip ((reqs.filterMap (fun r =>
      match r.tool_call with
      | .ok call => some call
      | .err _ => none)).map dispatch) with
  | nil =>
      exfalso
      rw [List.zip_eq_nil_iff] at hz
      rcases hz with h1 | h2
      · exact hne h1
      · rw [List.map_eq_nil_iff] at h2
        rw [h2] at hlen
        simp only [List.length_nil] at hlen
        exact hne (List.length_eq_zero.mp hlen.symm)
  | cons p ps => simp only [hz, List.map_cons, List.isEmpty_cons]

/-- Every message the reply loop yields from a well-shaped working history is
status-free, and the shape is preserved across iterations. -/
theorem reply_loop_status_free (env : AgentEnv)
    (hprov : ∀ ms, provider_ok (env.provider_complete ms) = true) :
    ∀ (fuel iter : Nat) (msgs : List Message), working_shape msgs →
      ∀ m ∈ reply_loop env fuel iter msgs, status_free m = true := by
  intro fuel
  induction fuel with
  | zero =>
      intro iter msgs _ m hm
      simp [reply_loop] at hm
  | succ f ih =>
      intro iter msgs hshape m hm
      have hp := hprov msgs
      simp only [provider_ok, Bool.and_eq_true] at hp
      obtain ⟨⟨hsf, hne⟩, hok⟩ := hp
      by_cases hreq :
          (collect_tool_requests (env.provider_complete msgs)).isEmpty = true
      · simp only [reply_loop, hreq, if_true, List.mem_singleton] at hm
        exact hm ▸ hsf
      · simp only [Bool.not_eq_true] at hreq
        simp only [reply_loop, hreq, Bool.false_eq_true, if_false,
          List.mem_cons] at hm
        have hids := collect_ids_ne_status _ hsf
        have hok' : ∀ r ∈ collect_tool_requests (env.provider_complete msgs),
            (match r.tool_call with
              | RsResult.ok _ => true
              | RsResult.err _ => false) = true := by
          simpa only [List.all_eq_true] using hok
        rcases hm with rfl | rfl | hm
        · exact hsf
        · exact status_free_dispatch_responses _ _ hids
        · -- the recursive yield: establish the next working shape
          obtain ⟨core, hcore, hdisj⟩ := hshape
          have hstrip : strip_status_pair msgs = core := by
            rcases hdisj with h | ⟨s, h⟩
            · rw [h]
              exact strip_status_pair_good core hcore
            · rw [h]
              exact strip_status_pair_of_pair core s
          refine ih (iter + 1) _ ?_ m hm
          have hnenil :
              collect_tool_requests (env.provider_complete msgs) ≠ [] := by
            intro hcon
            rw [hcon] at hreq
            simp at hreq
          have hrespne :
              ((dispatch_responses_message env.dispatch_tool_call
                (collect_tool_requests (env.provider_complete msgs))).content.isEmpty)
                = false :=
            dispatch_responses_message_nonempty _ _ hok' hnenil
          have hgood' :
              good_history (core ++
                [env.provider_complete msgs,
                 dispatch_responses_message env.dispatch_tool_call
                   (collect_tool_requests (env.provider_complete msgs))]) = true := by
            simp only [good_history] at hcore ⊢
            rw [List.all_append]
            simp only [List.all_cons, List.all_nil, Bool.and_eq_true]
            refine ⟨hcore, ⟨?_, ?_⟩, ⟨?_, ?_⟩, trivial⟩
            · exact hsf
            · exact hne
            · exact status_free_dispatch_responses _ _ hids
            · simp [hrespne]
          rw [hstrip]
          rcases prepare_inference_shape env.token_counter env.system_prompt
              env.tools core
              [env.provider_complete msgs,
               dispatch_responses_message env.dispatch_tool_call
                 (collect_tool_requests (env.provider_complete msgs))]
              env.estimated_limit env.model_name (env.get_resources iter)
            with hpi | ⟨s, hpi⟩
          · exact ⟨_, hgood', Or.inl hpi⟩
          · exact ⟨_, hgood', Or.inr ⟨s, hpi⟩⟩

/-- C5: the budgeter's status pair is an assistant `tool_request` with id
`"000"` followed by a user `tool_response` with the same id, appended at the
very end of the working history; each loop iteration strips exactly that
trailing pair before appending the pending messages (and stripping a
status-free history is the identity, so at most one pair ever exists); and —
for any history of ordinary messages and any provider whose completions are
status-free with well-formed tool calls — no yielded message contains a
`"000"` block, so the status pair is never yielded to the consumer and hence
never persisted. -/
theorem C5_status_pair_stripped_and_never_yielded (env : AgentEnv)
    (fuel : Nat) (history : List Message)
    (hhist : good_history history = true)
    (hprov : ∀ ms, provider_ok (env.provider_complete ms) = true) :
    (∀ (tc : TokenCounter) (sp : String) (tls : List Tool)
        (msgs pending : List Message) (tgt : Nat) (mdl : String)
        (rc : ResourceContent),
        prepare_inference tc sp tls msgs pending tgt mdl rc = msgs ++ pending ∨
        ∃ s, prepare_inference tc sp tls msgs pending tgt mdl rc =
          (msgs ++ pending) ++
            [status_request_message, status_response_message s]) ∧
    (∀ (core : List Message) (s : String),
        strip_status_pair
          (core ++ [status_request_message, status_response_message s]) =
          core) ∧
    (∀ core : List Message, good_history core = true →
        strip_status_pair core = core) ∧
    (∀ m ∈ reply env fuel history, status_free m = true) := by
  refine ⟨prepare_inference_shape, strip_status_pair_of_pair,
    strip_status_pair_good, ?_⟩
  intro m hm
  refine reply_loop_status_free env hprov fuel 1 _ ?_ m hm
  rcases prepare_inference_shape env.token_counter env.system_prompt env.tools
      history [] env.estimated_limit env.model_name (env.get_resources 0)
    with hpi | ⟨s, hpi⟩
  · exact ⟨history, hhist, Or.inl (by simpa using hpi)⟩
  · exact ⟨history, hhist, Or.inr ⟨s, by simpa using hpi⟩⟩

/-- Witness for C5 at the echo environment: the history `[User("Hi")]` is a
good history, the stubbed provider is well behaved, and every yielded
message is status-free. -/
theorem C5_status_pair_stripped_and_never_yielded_witness :
    good_history c7_history = true ∧
    (∀ ms, provider_ok (c7_env.provider_complete ms) = true) ∧
    (∀ m ∈ reply c7_env 1 c7_history, status_free m = true) :=
  ⟨by decide,
    fun _ =>
      (by decide : provider_ok (Message.assistant.with_text "Hello") = true),
    (C5_status_pair_stripped_and_never_yielded c7_env 1 c7_history
      (by decide)
      (fun _ =>
        (by decide :
          provider_ok (Message.assistant.with_text "Hello") = true))).2.2.2⟩

/-! ## C6 — resource trimming by (priority, timestamp) -/

/-- The 0.9-priority entry sorts before the older 0.5-priority entry:
the priorities differ by more than the epsilon, so the comparator orders by
priority descending. -/
theorem c6_cmp_09_t1 :
    resource_cmp ⟨"sys", "u0", c6_r09, 800⟩ ⟨"sys", "u1", c6_r05_t1, 800⟩ =
      .lt := by
  norm_num [resource_cmp, c6_r09, c6_r05_t1, PRIORITY_EPSILON, optionRatCmp,
    ratCmp]
  intro h
  rw [abs_of_pos (by norm_num : (0:ℚ) < 2 / 5)] at h
  norm_num at h

/-- The 0.9-priority entry sorts before the newer 0.5-priority entry. -/
theorem c6_cmp_09_t2 :
    resource_cmp ⟨"sys", "u0", c6_r09, 800⟩ ⟨"sys", "u2", c6_r05_t2, 800⟩ =
      .lt := by
  norm_num [resource_cmp, c6_r09, c6_r05_t2, PRIORITY_EPSILON, optionRatCmp,
    ratCmp]
  intro h
  rw [abs_of_pos (by norm_num : (0:ℚ) < 2 / 5)] at h
  norm_num at h

/-- The two 0.5-priority entries are within the epsilon, so the comparator
falls back to timestamps, newest first: the older (T1) sorts after the newer
(T2). -/
theorem c6_cmp_t1_t2 :
    resource_cmp ⟨"sys", "u1", c6_r05_t1, 800⟩ ⟨"sys", "u2", c6_r05_t2, 800⟩ =
      .gt := by
  norm_num [resource_cmp, c6_r05_t1, c6_r05_t2, PRIORITY_EPSILON]
  decide

/-- The sorted order of the trim instance: highest priority first, and the
epsilon-tied 0.5 pair ordered newest-timestamp first. -/
theorem c6_sort_order :
    sort_by resource_cmp
      [ ⟨"sys", "u0", c6_r09, 800⟩, ⟨"sys", "u1", c6_r05_t1, 800⟩,
        ⟨"sys", "u2", c6_r05_t2, 800⟩ ] =
      [ ⟨"sys", "u0", c6_r09, 800⟩, ⟨"sys", "u2", c6_r05_t2, 800⟩,
        ⟨"sys", "u1", c6_r05_t1, 800⟩ ] := by
  simp [sort_by, insertBy, c6_cmp_09_t1, c6_cmp_09_t2, c6_cmp_t1_t2]

/-- Trimming the sorted instance against a target of 1200: the tail (the T1
entry, lowest priority and oldest among the tied pair) is dropped first
(2600 → 1800 tokens, still over), then the T2 entry (1800 → 1000), and only
then is the estimate within budget — only the 0.9 resource survives. -/
theorem c6_trim_1200 :
    trim_resources 1200 2600
      [ ⟨"sys", "u0", c6_r09, 800⟩, ⟨"sys", "u2", c6_r05_t2, 800⟩,
        ⟨"sys", "u1", c6_r05_t1, 800⟩ ] =
      (1000, [⟨"sys", "u0", c6_r09, 800⟩]) := rfl

/-- Trimming the sorted instance against a target of 2000: dropping the T1
entry brings the estimate to 1800 ≤ 2000, so the 0.9 and the newer 0.5 (T2)
entries survive. -/
theorem c6_trim_2000 :
    trim_resources 2000 2600
      [ ⟨"sys", "u0", c6_r09, 800⟩, ⟨"sys", "u2", c6_r05_t2, 800⟩,
        ⟨"sys", "u1", c6_r05_t1, 800⟩ ] =
      (1800,
        [⟨"sys", "u0", c6_r09, 800⟩, ⟨"sys", "u2", c6_r05_t2, 800⟩]) := rfl

/-- The trim loop drops a prefix of the reversed list (a suffix of the
sorted vector), each drop happening only while the count is over target, and
stops at or below the target unless everything is dropped. -/
theorem trim_go_spec (target : Nat) :
    ∀ (current : Nat) (l : List ResourceEntry),
      ∃ d, d ++ (trim_go target current l).2 = l ∧
        drops_only_while_over target current d = true ∧
        ((trim_go target current l).1 ≤ target ∨
          (trim_go target current l).2 = []) := by
  intro current l
  induction l generalizing current with
  | nil => exact ⟨[], by simp [trim_go], rfl, Or.inr rfl⟩
  | cons e rest ih =>
      by_cases h : current > target
      · obtain ⟨d, hd, hdrops, hstop⟩ := ih (current - e.token_count)
        refine ⟨e :: d, ?_, ?_, ?_⟩
        · simp [trim_go, h, hd]
        · simp [drops_only_while_over, h, hdrops]
        · simpa [trim_go, h] using hstop
      · refine ⟨[], by simp [trim_go, h], rfl, Or.inl ?_⟩
        simp only [trim_go, h, Bool.false_eq_true, if_false]
        omega

/-- The surviving entries are an initial fragment of the sorted vector, the
dropped entries (in drop order, i.e. from the sorted tail) were each removed
only while the estimate exceeded the target, and trimming stops at or below
the target unless every entry is dropped. -/
theorem trim_resources_spec (target current : Nat) (l : List ResourceEntry) :
    ∃ t, (trim_resources target current l).2 ++ t = l ∧
      drops_only_while_over target current t.reverse = true ∧
      ((trim_resources target current l).1 ≤ target ∨
        (trim_resources target current l).2 = []) := by
  obtain ⟨d, hd, hdrops, hstop⟩ := trim_go_spec target current l.reverse
  refine ⟨d.reverse, ?_, by simpa using hdrops, ?_⟩
  · have := congrArg List.reverse hd
    simpa [trim_resources, List.reverse_append] using this
  · rcases hstop with h | h
    · exact Or.inl (by simpa [trim_resources] using h)
    · exact Or.inr (by simp [trim_resources, h])

/-- Budgeting the instance against a target of 1200 (total estimate 2600):
only the 0.9 resource survives into the status content. -/
theorem c6_prepare_1200 :
    prepare_inference c6_tc "" [] [] [] 1200 "m" c6_rc =
      [status_request_message,
       status_response_message (statusEntry c6_r09 "c0")] := by
  simp only [prepare_inference, c6_tc, c6_rc, List.map_cons, List.map_nil,
    List.flatten, List.append_nil]
  rw [c6_sort_order]
  decide

/-- Budgeting the instance against a target of 2000: the 0.9 resource and
the newer 0.5 resource (T2) survive; the older 0.5 resource (T1) is the one
dropped. -/
theorem c6_prepare_2000 :
    prepare_inference c6_tc "" [] [] [] 2000 "m" c6_rc =
      [status_request_message,
       status_response_message
         (String.intercalate "\n"
           [statusEntry c6_r09 "c0", statusEntry c6_r05_t2 "c2"])] := by
  simp only [prepare_inference, c6_tc, c6_rc, List.map_cons, List.map_nil,
    List.flatten, List.append_nil]
  rw [c6_sort_order]
  decide

/-- C6 counterexample: with resources of priorities 0.9/0.5/0.5 (timestamps
T0 < T1 < T2) at 800 tokens each and a 2600-token total estimate, a budget
of 1200 does not leave the 0.9 and T2 resources: after dropping T1 the
estimate is 1800, still over 1200, so T2 is dropped as well and only the 0.9
resource appears in the synthesized status. -/
theorem C6_budget_1200_drops_t2_as_well :
    prepare_inference c6_tc "" [] [] [] 1200 "m" c6_rc =
      [status_request_message,
       status_response_message (statusEntry c6_r09 "c0")] ∧
    ((prepare_inference c6_tc "" [] [] [] 1200 "m" c6_rc ==
      [status_request_message,
       status_response_message
         (String.intercalate "\n"
           [statusEntry c6_r09 "c0", statusEntry c6_r05_t2 "c2"])]) =
      false) := by
  refine ⟨c6_prepare_1200, ?_⟩
  rw [c6_prepare_1200]
  decide

/-- C6 amended: over the target, resources are dropped one at a time from
the tail of the list sorted by priority descending (a missing priority
counting as 0), epsilon-tied priorities ordered newer-timestamp first — so
the lowest-priority, oldest-among-tied resource goes first — and dropping
stops as soon as the running estimate is at or below the target (or nothing
is left); only survivors appear in the status.  For the 0.9/0.5/0.5
instance: T1 is dropped first, but against a budget of ~1200 the T2 resource
is dropped as well, leaving only the 0.9 resource; the claimed outcome
(0.9 and T2 survive, T1 dropped) requires a budget of at least 1800, e.g.
2000. -/
theorem C6_trim_by_priority_and_recency :
    (sort_by resource_cmp
      [ ⟨"sys", "u0", c6_r09, 800⟩, ⟨"sys", "u1", c6_r05_t1, 800⟩,
        ⟨"sys", "u2", c6_r05_t2, 800⟩ ] =
      [ ⟨"sys", "u0", c6_r09, 800⟩, ⟨"sys", "u2", c6_r05_t2, 800⟩,
        ⟨"sys", "u1", c6_r05_t1, 800⟩ ]) ∧
    prepare_inference c6_tc "" [] [] [] 1200 "m" c6_rc =
      [status_request_message,
       status_response_message (statusEntry c6_r09 "c0")] ∧
    prepare_inference c6_tc "" [] [] [] 2000 "m" c6_rc =
      [status_request_message,
       status_response_message
         (String.intercalate "\n"
           [statusEntry c6_r09 "c0", statusEntry c6_r05_t2 "c2"])] ∧
    (∀ (target current : Nat) (l : List ResourceEntry),
      ∃ t, (trim_resources target current l).2 ++ t = l ∧
        drops_only_while_over target current t.reverse = true ∧
        ((trim_resources target current l).1 ≤ target ∨
          (trim_resources target current l).2 = [])) :=
  ⟨c6_sort_order, c6_prepare_1200, c6_prepare_2000, trim_resources_spec⟩
